import Mathlib

/-!
Shallow embedding of `dict.py`, a push-to-talk dictation script.

The embedding models:
* the regex substitutions of `clean_transcript` (placeholder-protect,
  literal-substitute, placeholder-restore) and the punctuation-cleanup
  substitutions of `stop_recording_and_process`, over `List Char`;
* the recording state machine (`recording` / `audio_data` globals and the
  `on_press` / `on_release` / `callback` handlers);
* the orchestration of `stop_recording_and_process` (empty-buffer guard,
  transcription call, strip, normalize, emit, exception handling), with the
  speech-to-text backend as an oracle value.

All regexes in the source are matched with `re.IGNORECASE`.  Every pattern in
the source is deterministic in the sense that greedy matching never needs to
backtrack: each optional or starred item is followed either by the end of the
pattern or by an item that cannot match any character the optional item could
have consumed (a space or whitespace run is never followed by an item matching
whitespace).  The matcher below therefore commits greedily at each item.
-/

namespace Dict

/-- Python regex word character (ASCII range of a word char, as used by the word
boundary in the source's patterns): letter, digit or underscore. -/
def isWordChar (c : Char) : Bool := c.isAlphanum || c == '_'

/-- Python regex whitespace (ASCII range used by the source's inputs):
space, tab, newline, carriage return, vertical tab, form feed. -/
def isSpaceChar (c : Char) : Bool :=
  c == ' ' || c == '\t' || c == '\n' || c == '\r' || c == '\x0b' || c == '\x0c'

/-- Whether the first character of the remaining text is a word character
(`false` at end of string). -/
def headIsWord : List Char → Bool
  | [] => false
  | c :: _ => isWordChar c

/-- One item of a regex pattern from `dict.py`.  Pattern letters are stored in
lower case; matching compares the lowercased input character, which is exactly
what `re.IGNORECASE` does on this ASCII alphabet. -/
inductive PatItem where
  /-- A word boundary (the regex b-escape): holds when exactly one side is a
  word character. -/
  | wb
  /-- A literal character, matched case-insensitively. -/
  | lit (c : Char)
  /-- An optional character class, e.g. the optional comma, period or question
  mark trailing the spoken punctuation words. -/
  | optCls (cs : List Char)
  /-- An optional single space. -/
  | optSp
  /-- Zero or more whitespace characters, greedy. -/
  | wsStar
  /-- One or more whitespace characters, greedy. -/
  | wsPlus
deriving DecidableEq

/-- Match a pattern against a prefix of the text.  `pw` records whether the
character immediately before the current position is a word character (for word
boundaries).  On success returns the word-character flag of the last consumed
character together with the unconsumed remainder of the text. -/
def matchItems : List PatItem → Bool → List Char → Option (Bool × List Char)
  | [], pw, s => some (pw, s)
  | .wb :: is, pw, s => if pw == headIsWord s then none else matchItems is pw s
  | .lit _ :: _, _, [] => none
  | .lit c :: is, _, x :: xs =>
      if x.toLower == c then matchItems is (isWordChar x) xs else none
  | .optCls _ :: is, pw, [] => matchItems is pw []
  | .optCls cs :: is, pw, x :: xs =>
      if cs.contains x then matchItems is (isWordChar x) xs
      else matchItems is pw (x :: xs)
  | .optSp :: is, pw, [] => matchItems is pw []
  | .optSp :: is, pw, x :: xs =>
      if x == ' ' then matchItems is false xs else matchItems is pw (x :: xs)
  | .wsStar :: is, pw, s =>
      let t := s.dropWhile isSpaceChar
      matchItems is (if t.length == s.length then pw else false) t
  | .wsPlus :: is, _, s =>
      let t := s.dropWhile isSpaceChar
      if t.length == s.length then none else matchItems is false t

/-- `re.sub` scanning: try a match at every position from left to right; on a
match, emit the replacement and continue after the matched text.  Word
boundaries of later matches are evaluated against the original text, so the
word-character flag of the last consumed character is threaded through.  On an
empty match Python emits the replacement, copies one character and advances;
the branch is included for totality although no pattern of `dict.py` can match
the empty string.  The fuel argument exceeds the number of scan steps, which is
at most the length of the text plus one. -/
def subScanF (p : List PatItem) (repl : List Char) : Nat → Bool → List Char → List Char
  | 0, _, s => s
  | _ + 1, pw, [] =>
      match matchItems p pw [] with
      | some _ => repl
      | none => []
  | fuel + 1, pw, x :: xs =>
      match matchItems p pw (x :: xs) with
      | some (pw', rest) =>
          if rest.length < xs.length + 1 then repl ++ subScanF p repl fuel pw' rest
          else repl ++ x :: subScanF p repl fuel (isWordChar x) xs
      | none => x :: subScanF p repl fuel (isWordChar x) xs

/-- `re.sub(pattern, repl, s, flags=re.IGNORECASE)` for the patterns of
`dict.py`.  Matching starts with no preceding word character. -/
def sub (p : List PatItem) (repl : List Char) (s : List Char) : List Char :=
  subScanF p repl (s.length + 1) false s

/-- `str.replace`: replace every occurrence of a (nonempty) needle, scanning
left to right without overlap. -/
def replaceSub (needle repl : List Char) : Nat → List Char → List Char
  | 0, s => s
  | _ + 1, [] => []
  | fuel + 1, x :: xs =>
      if needle.isPrefixOf (x :: xs) then
        repl ++ replaceSub needle repl fuel ((x :: xs).drop needle.length)
      else x :: replaceSub needle repl fuel xs

/-- `s.replace(needle, repl)`. -/
def strReplace (s needle repl : List Char) : List Char :=
  replaceSub needle repl (s.length + 1) s

/-- The punctuation class of the cleanup regexes. -/
def punctChars : List Char := [',', '.', '!', '?']

/-- One or more repetitions of (whitespace-star then the captured punctuation
character `c`), greedy — the repeated group of the duplicate-punctuation
cleanup regex.  Whitespace is never the punctuation character, so greedy
whitespace consumption needs no backtracking.  Returns the remainder after the
last successful repetition, or `none` if no repetition matches. -/
def dupReps (c : Char) : Nat → List Char → Option (List Char)
  | 0, _ => none
  | fuel + 1, s =>
      match s.dropWhile isSpaceChar with
      | [] => none
      | x :: xs => if x == c then some ((dupReps c fuel xs).getD xs) else none

/-- The first cleanup substitution: collapse a run of the same repeated
punctuation mark, with optional whitespace between repeats, to one instance
(the capture-and-backreference regex of line 112 of `dict.py`). -/
def subDupPunct : Nat → List Char → List Char
  | 0, s => s
  | _ + 1, [] => []
  | fuel + 1, x :: xs =>
      if punctChars.contains x then
        match dupReps x (xs.length + 1) xs with
        | some rest => x :: subDupPunct fuel rest
        | none => x :: subDupPunct fuel xs
      else x :: subDupPunct fuel xs

/-- The third cleanup substitution: delete whitespace immediately preceding a
punctuation mark, keeping the mark (line 114 of `dict.py`). -/
def subSpacePunct : Nat → List Char → List Char
  | 0, s => s
  | _ + 1, [] => []
  | fuel + 1, x :: xs =>
      if isSpaceChar x then
        match xs.dropWhile isSpaceChar with
        | y :: ys =>
            if punctChars.contains y then y :: subSpacePunct fuel ys
            else x :: subSpacePunct fuel xs
        | [] => x :: subSpacePunct fuel xs
      else x :: subSpacePunct fuel xs

/-! ### The patterns of `dict.py`

Each definition mirrors one pattern string of the source; the original pattern
is given in the comment. -/

/-- Pattern `bactual new ?lineb[,.?]? ?` (b the word-boundary escape). -/
def pActualNewLine : List PatItem :=
  [.wb, .lit 'a', .lit 'c', .lit 't', .lit 'u', .lit 'a', .lit 'l', .lit ' ',
   .lit 'n', .lit 'e', .lit 'w', .optSp, .lit 'l', .lit 'i', .lit 'n', .lit 'e',
   .wb, .optCls [',', '.', '?'], .optSp]

/-- Pattern `bactual inverted commab[,.?]? ?`. -/
def pActualInvComma : List PatItem :=
  [.wb, .lit 'a', .lit 'c', .lit 't', .lit 'u', .lit 'a', .lit 'l', .lit ' ',
   .lit 'i', .lit 'n', .lit 'v', .lit 'e', .lit 'r', .lit 't', .lit 'e', .lit 'd',
   .lit ' ', .lit 'c', .lit 'o', .lit 'm', .lit 'm', .lit 'a',
   .wb, .optCls [',', '.', '?'], .optSp]

/-- Pattern `bactual commab[,.?]? ?`. -/
def pActualComma : List PatItem :=
  [.wb, .lit 'a', .lit 'c', .lit 't', .lit 'u', .lit 'a', .lit 'l', .lit ' ',
   .lit 'c', .lit 'o', .lit 'm', .lit 'm', .lit 'a',
   .wb, .optCls [',', '.', '?'], .optSp]

/-- Pattern `bactual full stopb[,.?]? ?`. -/
def pActualFullStop : List PatItem :=
  [.wb, .lit 'a', .lit 'c', .lit 't', .lit 'u', .lit 'a', .lit 'l', .lit ' ',
   .lit 'f', .lit 'u', .lit 'l', .lit 'l', .lit ' ', .lit 's', .lit 't', .lit 'o', .lit 'p',
   .wb, .optCls [',', '.', '?'], .optSp]

/-- Pattern `bnew ?lineb[,.?]? ?`. -/
def pNewLine : List PatItem :=
  [.wb, .lit 'n', .lit 'e', .lit 'w', .optSp, .lit 'l', .lit 'i', .lit 'n', .lit 'e',
   .wb, .optCls [',', '.', '?'], .optSp]

/-- Pattern `binverted commab[,.?]?` — note: unlike the other three, no
optional trailing space is consumed. -/
def pInvComma : List PatItem :=
  [.wb, .lit 'i', .lit 'n', .lit 'v', .lit 'e', .lit 'r', .lit 't', .lit 'e', .lit 'd',
   .lit ' ', .lit 'c', .lit 'o', .lit 'm', .lit 'm', .lit 'a',
   .wb, .optCls [',', '.', '?']]

/-- Pattern `bcommab[,.?]? ?`. -/
def pComma : List PatItem :=
  [.wb, .lit 'c', .lit 'o', .lit 'm', .lit 'm', .lit 'a',
   .wb, .optCls [',', '.', '?'], .optSp]

/-- Pattern `bfull stopb[,.?]? ?`. -/
def pFullStop : List PatItem :=
  [.wb, .lit 'f', .lit 'u', .lit 'l', .lit 'l', .lit ' ', .lit 's', .lit 't', .lit 'o', .lit 'p',
   .wb, .optCls [',', '.', '?'], .optSp]

/-- The placeholder token protecting a literal spoken "new line". -/
def NEW_LINE_PLACEHOLDER : List Char := "NEW_LINE_PLACEHOLDER".toList

/-- The placeholder token protecting a literal spoken "inverted comma". -/
def INVERTED_COMMA_PLACEHOLDER : List Char := "INVERTED_COMMA_PLACEHOLDER".toList

/-- The placeholder token protecting a literal spoken "comma". -/
def COMMA_PLACEHOLDER : List Char := "COMMA_PLACEHOLDER".toList

/-- The placeholder token protecting a literal spoken "full stop". -/
def FULL_STOP_PLACEHOLDER : List Char := "FULL_STOP_PLACEHOLDER".toList

/-- `REPLACEMENTS_REAL` of `dict.py`: the placeholder-protect rules. -/
def REPLACEMENTS_REAL : List (List PatItem × List Char) :=
  [(pActualNewLine, NEW_LINE_PLACEHOLDER),
   (pActualInvComma, INVERTED_COMMA_PLACEHOLDER),
   (pActualComma, COMMA_PLACEHOLDER),
   (pActualFullStop, FULL_STOP_PLACEHOLDER)]

/-- `REPLACEMENTS` of `dict.py`: the literal-substitute rules. -/
def REPLACEMENTS : List (List PatItem × List Char) :=
  [(pNewLine, ['\n']),
   (pInvComma, ['"']),
   (pComma, [',', ' ']),
   (pFullStop, ['.', ' '])]

/-- `PLACEHOLDERS` of `dict.py`: the placeholder-restore rules. -/
def PLACEHOLDERS : List (List Char × List Char) :=
  [(NEW_LINE_PLACEHOLDER, "new line ".toList),
   (INVERTED_COMMA_PLACEHOLDER, "inverted comma ".toList),
   (COMMA_PLACEHOLDER, "comma ".toList),
   (FULL_STOP_PLACEHOLDER, "full stop ".toList)]

/-- The literal-substitute phase alone: the `REPLACEMENTS` loop of
`clean_transcript`. -/
def literalSubstitute (s : List Char) : List Char :=
  REPLACEMENTS.foldl (fun acc pr => sub pr.1 pr.2 acc) s

/-- `clean_transcript` of `dict.py`: protect, substitute, restore. -/
def clean_transcript (transcript : List Char) : List Char :=
  let t1 := REPLACEMENTS_REAL.foldl (fun acc pr => sub pr.1 pr.2 acc) transcript
  let t2 := REPLACEMENTS.foldl (fun acc pr => sub pr.1 pr.2 acc) t1
  PLACEHOLDERS.foldl (fun acc pr => strReplace acc pr.1 pr.2) t2

/-- Pattern `,s*.` (comma, whitespace-star, period) of line 113. -/
def pCommaDot : List PatItem := [.lit ',', .wsStar, .lit '.']

/-- Pattern `"s+` (quote then whitespace) of line 116. -/
def pQuoteWs : List PatItem := [.lit '"', .wsPlus]

/-- Pattern `s+"` (whitespace then quote) of line 117. -/
def pWsQuote : List PatItem := [.wsPlus, .lit '"']

/-- Pattern `",` of line 118. -/
def pQuoteComma : List PatItem := [.lit '"', .lit ',']

/-- Pattern `,"` of line 119. -/
def pCommaQuote : List PatItem := [.lit ',', .lit '"']

/-- The punctuation-cleanup pass: the seven `re.sub` calls of lines 112–119 of
`stop_recording_and_process`, in source order. -/
def cleanup (s0 : List Char) : List Char :=
  let s1 := subDupPunct (s0.length + 1) s0
  let s2 := sub pCommaDot ['.'] s1
  let s3 := subSpacePunct (s2.length + 1) s2
  let s4 := sub pQuoteWs ['"'] s3
  let s5 := sub pWsQuote ['"'] s4
  let s6 := sub pQuoteComma ['"'] s5
  sub pCommaQuote [' ', '"'] s6

/-- The full normalization applied to a nonempty stripped transcript:
`clean_transcript` followed by the punctuation-cleanup substitutions. -/
def normalize (s : List Char) : List Char := cleanup (clean_transcript s)

/-- `str.strip()`: drop leading and trailing whitespace. -/
def strip (s : List Char) : List Char :=
  ((s.dropWhile isSpaceChar).reverse.dropWhile isSpaceChar).reverse

/-- Whether the duplicate-punctuation regex of line 112 matches somewhere in
the string, i.e. the string contains repeated punctuation in the sense of the
cleanup pass. -/
def hasRepeatedPunct : List Char → Bool
  | [] => false
  | x :: xs =>
      (punctChars.contains x && (dupReps x (xs.length + 1) xs).isSome)
        || hasRepeatedPunct xs

/-! ### The recording state machine and orchestration -/

/-- One block of captured audio samples, as appended by the audio callback
(the sample values are irrelevant to the claims; only chunk identity and
arrival order matter). -/
abbrev Chunk := List Int

/-- The mutable globals `recording` and `audio_data` of `dict.py`. -/
structure St where
  recording : Bool
  audio_data : List Chunk
deriving DecidableEq

/-- Observable phase of the capture controller. -/
inductive Phase where
  | idle
  | recording
deriving DecidableEq

/-- The observable phase of a state. -/
def phase (st : St) : Phase := if st.recording then .recording else .idle

/-- A failure raised while processing a session: `OpenAIError` (caught on line
121) or any other exception (caught on line 123).  Both handlers print the
cause and return normally. -/
inductive BackendFailure where
  | openaiError (msg : List Char)
  | otherError (msg : List Char)
deriving DecidableEq

/-- What one call of `stop_recording_and_process` did: the resulting globals,
how many transcription calls were made, the text handed to
`keyboard_controller.type` (if any), and what was printed. -/
structure ProcessResult where
  state : St
  transcribeCalls : Nat
  emitted : Option (List Char)
  printedNoAudio : Bool
  printedError : Option BackendFailure
deriving DecidableEq

/-- `start_recording` of `dict.py`: sets `recording = True` and resets
`audio_data` to an empty list. -/
def start_recording (_st : St) : St := ⟨true, []⟩

/-- `on_press` of `dict.py`: starts a session only when the pressed key is the
hotkey and no session is active. -/
def on_press (KEY key : Nat) (st : St) : St :=
  if key == KEY && !st.recording then start_recording st else st

/-- `stop_recording_and_process` of `dict.py`: clears `recording`, returns
early with "No audio recorded" when no chunks were appended (so the
concatenation is never reached on an empty buffer), otherwise calls the
transcription backend (modelled as an oracle result covering `apply_whisper`
and everything else inside the `try` block), strips the transcript, and for a
nonempty transcript types the normalized text plus one trailing space.  A
failure is caught, printed and not re-raised. -/
def stop_recording_and_process (st : St)
    (backend : Except BackendFailure (List Char)) : ProcessResult :=
  if st.audio_data.isEmpty then
    ⟨⟨false, st.audio_data⟩, 0, none, true, none⟩
  else
    match backend with
    | .error e => ⟨⟨false, st.audio_data⟩, 1, none, false, some e⟩
    | .ok raw =>
        let transcript := strip raw
        if transcript.isEmpty then ⟨⟨false, st.audio_data⟩, 1, none, false, none⟩
        else ⟨⟨false, st.audio_data⟩, 1, some (normalize transcript ++ [' ']), false, none⟩

/-- `on_release` of `dict.py`: triggers `stop_recording_and_process` only when
the released key is the hotkey and a session is active; returns the new state
and the processing record when processing was triggered. -/
def on_release (KEY key : Nat) (st : St)
    (backend : Except BackendFailure (List Char)) : St × Option ProcessResult :=
  if key == KEY && st.recording then
    let r := stop_recording_and_process st backend
    (r.state, some r)
  else (st, none)

/-- `callback` of `dict.py`: appends the chunk while recording, otherwise
drops it. -/
def callback (indata : Chunk) (st : St) : St :=
  if st.recording then { st with audio_data := st.audio_data ++ [indata] } else st

/-- An event delivered to the listening loop. -/
inductive Ev where
  | keyDown (k : Nat)
  | keyUp (k : Nat)
  | audioChunk (c : Chunk)

/-- Run a sequence of events through the handlers.  `backend n` is the oracle
result of the transcription of session number `n`; the returned list collects
the processing records of the triggered sessions in order. -/
def runEvents (KEY : Nat) (backend : Nat → Except BackendFailure (List Char)) :
    List Ev → Nat → St → St × List ProcessResult
  | [], _, st => (st, [])
  | .keyDown k :: evs, n, st => runEvents KEY backend evs n (on_press KEY k st)
  | .keyUp k :: evs, n, st =>
      match on_release KEY k st (backend n) with
      | (st', some r) =>
          let rec' := runEvents KEY backend evs (n + 1) st'
          (rec'.1, r :: rec'.2)
      | (st', none) => runEvents KEY backend evs n st'
  | .audioChunk c :: evs, n, st => runEvents KEY backend evs n (callback c st)

/-! ### Helper lemmas -/

/-- The result of `stop_recording_and_process` always has `recording = false`
and the audio buffer unchanged, in every branch. -/
lemma stop_state (st : St) (b : Except BackendFailure (List Char)) :
    (stop_recording_and_process st b).state = ⟨false, st.audio_data⟩ := by
  unfold stop_recording_and_process
  rcases b with e | raw <;> by_cases h : st.audio_data.isEmpty <;>
    (simp [h]; try (split <;> rfl))

/-- A pattern without whitespace-star and whitespace-plus items consumes at
most one character per item, so whether it fails to match is determined by a
prefix of the text at least as long as the pattern. -/
lemma matchItems_none_congr (p : List PatItem)
    (hp : ∀ i ∈ p, i ≠ PatItem.wsStar ∧ i ≠ PatItem.wsPlus) :
    ∀ (pw : Bool) (t b b' : List Char), p.length ≤ t.length →
      matchItems p pw (t ++ b) = none → matchItems p pw (t ++ b') = none := by
  induction p with
  | nil =>
      intro pw t b b' _ hnone
      simp [matchItems] at hnone
  | cons i is ih =>
      intro pw t b b' hlen hnone
      have hi := hp i (List.mem_cons_self i is)
      have hp' : ∀ j ∈ is, j ≠ PatItem.wsStar ∧ j ≠ PatItem.wsPlus :=
        fun j hj => hp j (List.mem_cons_of_mem i hj)
      have ht : t ≠ [] := by
        intro h
        subst h
        simp at hlen
      obtain ⟨y, t', rfl⟩ := List.exists_cons_of_ne_nil ht
      have hlen' : is.length ≤ t'.length := by
        simpa [List.length_cons, Nat.succ_le_succ_iff] using hlen
      cases i with
      | wb =>
          simp only [matchItems, List.cons_append, headIsWord] at hnone ⊢
          by_cases hb : pw == isWordChar y
          · simp [hb]
          · simp only [hb, if_false] at hnone ⊢
            exact ih hp' pw (y :: t') b b' (Nat.le_of_succ_le hlen) hnone
      | lit c =>
          simp only [matchItems, List.cons_append] at hnone ⊢
          by_cases hc : y.toLower == c
          · simp only [hc, if_true] at hnone ⊢
            exact ih hp' (isWordChar y) t' b b' hlen' hnone
          · simp [hc]
      | optCls cs =>
          simp only [matchItems, List.cons_append] at hnone ⊢
          by_cases hc : cs.contains y
          · simp only [hc, if_true] at hnone ⊢
            exact ih hp' (isWordChar y) t' b b' hlen' hnone
          · simp only [hc, if_false] at hnone ⊢
            exact ih hp' pw (y :: t') b b' (Nat.le_of_succ_le hlen) hnone
      | optSp =>
          simp only [matchItems, List.cons_append] at hnone ⊢
          by_cases hc : y == ' '
          · simp only [hc, if_true] at hnone ⊢
            exact ih hp' false t' b b' hlen' hnone
          · simp only [hc, if_false] at hnone ⊢
            exact ih hp' pw (y :: t') b b' (Nat.le_of_succ_le hlen) hnone
      | wsStar => exact absurd rfl hi.1
      | wsPlus => exact absurd rfl hi.2

/-- A pattern starting with a word boundary cannot match at a position whose
left neighbour and first character are both word characters. -/
lemma wb_no_match_inside (is : List PatItem) (s : List Char)
    (h : headIsWord s = true) : matchItems (PatItem.wb :: is) true s = none := by
  simp [matchItems, h]

/-- Inside a token all of whose characters are word characters, a pattern
starting with a word boundary never matches, whatever follows the token. -/
lemma interior_inert (tok : List Char) (hall : tok.all isWordChar = true)
    (is : List PatItem) (k : Nat) (hk : k < tok.length) (b : List Char) :
    matchItems (PatItem.wb :: is) true (tok.drop k ++ b) = none := by
  apply wb_no_match_inside
  rw [List.drop_eq_getElem_cons hk]
  simp only [List.cons_append, headIsWord]
  exact List.all_eq_true.mp hall _ (List.getElem_mem hk)

/-! ### The claims -/

/-- Claim C1, counterexample: on the raw transcript
"she said inverted comma hi there inverted comma" the pipeline does not yield
the spec's expected output with a space between "said" and the opening quote —
the whitespace-before-quote substitution removes that space as well. -/
theorem claim_C1_counterexample :
    normalize "she said inverted comma hi there inverted comma".toList
      ≠ "she said \"hi there\"".toList := by
  decide

/-- Claim C1, amended: the pipeline yields `she said"hi there"` — balanced
quote characters around "hi there" and no whitespace just inside either quote,
but the space between "said" and the opening quote is stripped too (by the
whitespace-before-quote substitution of line 117). -/
theorem claim_C1 :
    normalize "she said inverted comma hi there inverted comma".toList
      = "she said\"hi there\"".toList := by
  decide

/-- Claim C2, counterexample: on the raw transcript
"hello comma comma world full stop full stop" the pipeline does not yield
exactly "hello, world." — a space (from the ". " replacement of "full stop")
follows the final period. -/
theorem claim_C2_counterexample :
    normalize "hello comma comma world full stop full stop".toList
      ≠ "hello, world.".toList := by
  decide

/-- Claim C2, amended: the pipeline yields `hello, world. ` — the duplicate
comma and duplicate full stop each collapse to one mark and whitespace before
punctuation is removed, but one trailing space (from the ". " replacement)
follows the final period. -/
theorem claim_C2 :
    normalize "hello comma comma world full stop full stop".toList
      = "hello, world. ".toList := by
  decide

/-- Claim C3: the full pipeline renders "actual comma" as the literal words
"comma " (with no comma character in the output), while the bare input "comma"
becomes ", ". -/
theorem claim_C3 :
    normalize "actual comma".toList = "comma ".toList ∧
    ',' ∉ normalize "actual comma".toList ∧
    normalize "comma".toList = ", ".toList := by
  decide

/-- Claim C4, counterexample: the cleanup pass is not idempotent on every
input containing repeated punctuation.  On `..,"` the first pass yields
`. "` (the comma-before-quote substitution emits a space before the quote),
and a second pass removes that space, yielding `."`. -/
theorem claim_C4_counterexample :
    hasRepeatedPunct "..,\"".toList = true ∧
    cleanup (cleanup "..,\"".toList) ≠ cleanup "..,\"".toList := by
  decide

/-- Claim C4, amended: the cleanup pass is not idempotent for every input
containing repeated punctuation, but applying it twice equals applying it once
on the cleaned transcripts of the spec's two worked examples (the first of
which contains repeated punctuation). -/
theorem claim_C4 :
    hasRepeatedPunct
        (clean_transcript "hello comma comma world full stop full stop".toList)
      = true ∧
    cleanup (cleanup
        (clean_transcript "hello comma comma world full stop full stop".toList))
      = cleanup
        (clean_transcript "hello comma comma world full stop full stop".toList) ∧
    cleanup (cleanup
        (clean_transcript "she said inverted comma hi there inverted comma".toList))
      = cleanup
        (clean_transcript "she said inverted comma hi there inverted comma".toList) := by
  decide

/-- Claim C5, counterexample: the "inverted comma" pattern does not consume
optional trailing whitespace (its pattern, alone of the four, has no trailing
optional-space), so the literal-substitute phase maps "inverted comma x" to
`" x`, not to `"x`. -/
theorem claim_C5_counterexample :
    literalSubstitute "inverted comma x".toList = "\" x".toList ∧
    literalSubstitute "inverted comma x".toList ≠ "\"x".toList := by
  decide

/-- Claim C5, amended: all four spoken punctuation words are matched
case-insensitively at word boundaries and an optional trailing punctuation
mark is consumed; optional trailing whitespace is consumed by the "new line",
"comma" and "full stop" patterns but not by the "inverted comma" pattern. -/
theorem claim_C5 :
    literalSubstitute "new line x".toList = "\nx".toList ∧
    literalSubstitute "comma x".toList = ", x".toList ∧
    literalSubstitute "full stop x".toList = ". x".toList ∧
    literalSubstitute "inverted comma x".toList = "\" x".toList ∧
    literalSubstitute "New Line, x".toList = "\nx".toList ∧
    literalSubstitute "COMMA".toList = ", ".toList ∧
    literalSubstitute "INVERTED COMMA.".toList = "\"".toList ∧
    literalSubstitute "full stop? x".toList = ". x".toList ∧
    literalSubstitute "commas".toList = "commas".toList := by
  decide

/-- Claim C6: the controller's observable state is one of Idle/Recording; a
hotkey press in Idle moves to Recording with a fresh empty buffer; a press
while Recording is a no-op; a release in Recording moves to Idle (audio buffer
untouched) and triggers processing; a release in Idle is a no-op that triggers
nothing. -/
theorem claim_C6 (KEY : Nat) (st : St) (b : Except BackendFailure (List Char)) :
    (phase st = Phase.idle ∨ phase st = Phase.recording) ∧
    (st.recording = false → on_press KEY KEY st = ⟨true, []⟩) ∧
    (st.recording = true → on_press KEY KEY st = st) ∧
    (st.recording = true →
      (on_release KEY KEY st b).1 = ⟨false, st.audio_data⟩ ∧
      (on_release KEY KEY st b).2 = some (stop_recording_and_process st b)) ∧
    (st.recording = false → on_release KEY KEY st b = (st, none)) := by
  obtain ⟨r, ad⟩ := st
  cases r
  · simp [phase, on_press, on_release, start_recording]
  · refine ⟨by simp [phase], by simp, by simp [on_press], fun _ => ⟨?_, ?_⟩, by simp⟩
    · simp only [on_release]
      simp [stop_state]
    · simp [on_release]

/-- Witness for claim C6 at a concrete state. -/
theorem claim_C6_witness : on_press 0 0 ⟨false, [[2]]⟩ = (⟨true, []⟩ : St) :=
  (claim_C6 0 ⟨false, [[2]]⟩ (Except.ok [])).2.1 rfl

/-- Claim C7: a release with zero audio chunks reports "No audio recorded",
makes no transcription call, emits nothing, raises no error, and leaves the
controller ready for the next press. -/
theorem claim_C7 (KEY : Nat) (st : St) (b : Except BackendFailure (List Char))
    (h : st.audio_data = []) :
    stop_recording_and_process st b
      = ⟨⟨false, []⟩, 0, none, true, none⟩ ∧
    on_press KEY KEY (stop_recording_and_process st b).state = ⟨true, []⟩ := by
  have heq : stop_recording_and_process st b = ⟨⟨false, []⟩, 0, none, true, none⟩ := by
    unfold stop_recording_and_process
    simp [h]
  exact ⟨heq, by rw [heq]; simp [on_press, start_recording]⟩

/-- Witness for claim C7 at a concrete state. -/
theorem claim_C7_witness :
    stop_recording_and_process ⟨true, []⟩ (Except.ok ['a'])
      = ⟨⟨false, []⟩, 0, none, true, none⟩ ∧
    on_press 0 0 (stop_recording_and_process ⟨true, []⟩ (Except.ok ['a'])).state
      = ⟨true, []⟩ :=
  claim_C7 0 ⟨true, []⟩ (Except.ok ['a']) rfl

/-- Claim C8: a transcription failure in one session is caught (its cause is
recorded as printed), emits no text, makes exactly one backend call (no
retry), returns the controller to Idle, and a following press/release cycle
starts a fresh session and succeeds. -/
theorem claim_C8 (KEY : Nat) (backend : Nat → Except BackendFailure (List Char))
    (e : BackendFailure) (t : List Char) (c₁ c₂ : Chunk)
    (h0 : backend 0 = Except.error e) (h1 : backend 1 = Except.ok t)
    (ht : strip t ≠ []) :
    runEvents KEY backend
        [.keyDown KEY, .audioChunk c₁, .keyUp KEY,
         .keyDown KEY, .audioChunk c₂, .keyUp KEY] 0 ⟨false, []⟩
      = (⟨false, [c₂]⟩,
         [⟨⟨false, [c₁]⟩, 1, none, false, some e⟩,
          ⟨⟨false, [c₂]⟩, 1, some (normalize (strip t) ++ [' ']), false, none⟩]) := by
  have ht' : (strip t).isEmpty = false := by
    cases hst : strip t with
    | nil => exact absurd hst ht
    | cons y ys => rfl
  simp [runEvents, on_press, on_release, callback, start_recording,
    stop_recording_and_process, h0, h1, ht']

/-- Witness for claim C8 with a concrete failing-then-succeeding backend. -/
theorem claim_C8_witness :
    runEvents 0
        (fun n => if n == 0 then Except.error (.openaiError "boom".toList)
                  else Except.ok "hi".toList)
        [.keyDown 0, .audioChunk [1], .keyUp 0,
         .keyDown 0, .audioChunk [2], .keyUp 0] 0 ⟨false, []⟩
      = (⟨false, [[2]]⟩,
         [⟨⟨false, [[1]]⟩, 1, none, false, some (.openaiError "boom".toList)⟩,
          ⟨⟨false, [[2]]⟩, 1, some (normalize (strip "hi".toList) ++ [' ']),
           false, none⟩]) :=
  claim_C8 0 _ (.openaiError "boom".toList) "hi".toList [1] [2] rfl rfl (by decide)

/-- Claim C9: a session with audio and a non-empty stripped transcript emits
exactly the normalized text with one trailing space, and nothing else: one
transcription call, the single emission, and no error or no-audio report. -/
theorem claim_C9 (st : St) (raw : List Char)
    (ha : st.audio_data ≠ []) (ht : strip raw ≠ []) :
    stop_recording_and_process st (Except.ok raw)
      = ⟨⟨false, st.audio_data⟩, 1,
         some (normalize (strip raw) ++ [' ']), false, none⟩ := by
  have ha' : st.audio_data.isEmpty = false := by
    cases hst : st.audio_data with
    | nil => exact absurd hst ha
    | cons y ys => rfl
  have ht' : (strip raw).isEmpty = false := by
    cases hst : strip raw with
    | nil => exact absurd hst ht
    | cons y ys => rfl
  unfold stop_recording_and_process
  simp [ha', ht']

/-- Witness for claim C9 at a concrete session. -/
theorem claim_C9_witness :
    stop_recording_and_process ⟨true, [[1]]⟩ (Except.ok "hi".toList)
      = ⟨⟨false, [[1]]⟩, 1,
         some (normalize (strip "hi".toList) ++ [' ']), false, none⟩ :=
  claim_C9 ⟨true, [[1]]⟩ "hi".toList (by decide) (by decide)

/-- Claim C10: the placeholder tokens are inert under the literal-substitute
phase — no phase-2 pattern can match starting strictly inside a token (its
characters are all word characters, so no word boundary holds there), nor
starting at the token's first character (whatever precedes or follows the
token), so a placeholder inserted by the protect phase survives phase 2 and is
restored exactly, as the four concrete protect-substitute-restore runs show. -/
theorem claim_C10 :
    (∀ tok ∈ [NEW_LINE_PLACEHOLDER, INVERTED_COMMA_PLACEHOLDER,
              COMMA_PLACEHOLDER, FULL_STOP_PLACEHOLDER],
      ∀ p ∈ [pNewLine, pInvComma, pComma, pFullStop],
        (∀ k, 1 ≤ k → k < tok.length →
          ∀ b, matchItems p true (tok.drop k ++ b) = none) ∧
        (∀ (pw : Bool) (b : List Char), matchItems p pw (tok ++ b) = none)) ∧
    clean_transcript "actual new line".toList = "new line ".toList ∧
    clean_transcript "actual inverted comma".toList = "inverted comma ".toList ∧
    clean_transcript "actual comma".toList = "comma ".toList ∧
    clean_transcript "actual full stop".toList = "full stop ".toList := by
  refine ⟨?_, by decide, by decide, by decide, by decide⟩
  intro tok htok p hp
  simp only [List.mem_cons, List.mem_singleton, List.not_mem_nil, or_false] at htok hp
  constructor
  · intro k _ hk b
    have hwb : ∃ is, p = PatItem.wb :: is := by
      rcases hp with rfl | rfl | rfl | rfl <;> exact ⟨_, rfl⟩
    obtain ⟨is, rfl⟩ := hwb
    have hall : tok.all isWordChar = true := by
      rcases htok with rfl | rfl | rfl | rfl <;> decide
    exact interior_inert tok hall is k hk b
  · intro pw b
    have hstar : ∀ i ∈ p, i ≠ PatItem.wsStar ∧ i ≠ PatItem.wsPlus := by
      rcases hp with rfl | rfl | rfl | rfl <;> decide
    have hlen : p.length ≤ tok.length := by
      rcases hp with rfl | rfl | rfl | rfl <;> rcases htok with rfl | rfl | rfl | rfl <;>
        decide
    have base : matchItems p pw (tok ++ []) = none := by
      rw [List.append_nil]
      rcases hp with rfl | rfl | rfl | rfl <;> rcases htok with rfl | rfl | rfl | rfl <;>
        cases pw <;> decide
    exact matchItems_none_congr p hstar pw tok [] b hlen base

/-- Witness for claim C10: the comma pattern matches neither strictly inside
nor at the start of the comma placeholder, here followed by an `x`. -/
theorem claim_C10_witness :
    matchItems pComma true (COMMA_PLACEHOLDER.drop 1 ++ ['x']) = none ∧
    matchItems pComma false (COMMA_PLACEHOLDER ++ ['x']) = none := by
  have h := claim_C10.1 COMMA_PLACEHOLDER (by decide) pComma (by decide)
  exact ⟨h.1 1 (by decide) (by decide) ['x'], h.2 false ['x']⟩

end Dict
